import Mathlib

/-!
Verification of the RustQuant stochastic-process simulation core
(crate RustQuant_stochastics).

Shallow embedding conventions:
* `f64` scalars are modelled as `ℚ` (exact arithmetic; the spec's
  floating-tolerance clauses become exact equalities).
* `rand::thread_rng()` with `Normal::new(0.0, 1.0).sample_iter` is modelled as
  an external oracle `z : ℕ → ℕ → ℚ` giving the raw draw for (path index,
  step); the engine scales it exactly as the source does.
* `f64::sqrt` is modelled as an explicit function argument `sqrtf : ℚ → ℚ`.
* A Rust `assert!` that fails is a panic; panicking functions are embedded as
  `Option`-valued, with `none` for the panic.
-/

namespace RustQuant

/-- `ModelParameter` (crate module `model_parameter`, outside the excerpt).
Modelled from the spec: a time-varying parameter wraps either a constant or a
function of time into a uniform callable `time -> scalar`; models invoke it as
`self.sigma.0(t)`. We embed it directly as the callable. -/
abbrev ModelParameter := ℚ → ℚ

/-- A constant model parameter: ignores its time argument. -/
def ModelParameter.ofConstant (c : ℚ) : ModelParameter := fun _ => c

/-- `Trajectories`: the time points and path values of the process
(process.rs, lines 23-29). -/
structure Trajectories where
  times : List ℚ
  paths : List (List ℚ)
  deriving DecidableEq

/-- `StochasticScheme` (process.rs, lines 33-40). -/
inductive StochasticScheme where
  | eulerMaruyama
  | milstein
  | strangSplitting
  deriving DecidableEq

/-- `StochasticProcessConfig` (process.rs, lines 124-148).  The `seed` field
models `Option<u64>`. -/
structure StochasticProcessConfig where
  x_0 : ℚ
  t_0 : ℚ
  t_n : ℚ
  n_steps : ℕ
  scheme : StochasticScheme
  m_paths : ℕ
  parallel : Bool
  seed : Option ℕ
  deriving DecidableEq

/-- `StochasticProcessConfig::new` (process.rs, lines 152-172): builds the
record from the arguments, with no checks of any kind. -/
def StochasticProcessConfig.new (x_0 t_0 t_n : ℚ) (n_steps : ℕ)
    (scheme : StochasticScheme) (m_paths : ℕ) (parallel : Bool)
    (seed : Option ℕ) : StochasticProcessConfig :=
  { x_0 := x_0, t_0 := t_0, t_n := t_n, scheme := scheme, n_steps := n_steps,
    m_paths := m_paths, parallel := parallel, seed := seed }

/-- The data of the `StochasticVolatilityProcess` trait (process.rs, lines
43-54): drift and diffusion for the asset factor (`_1`) and the volatility
factor (`_2`). -/
structure StochasticVolatilityProcess where
  drift_1 : ℚ → ℚ → ℚ
  drift_2 : ℚ → ℚ → ℚ
  diffusion_1 : ℚ → ℚ → ℚ
  diffusion_2 : ℚ → ℚ → ℚ

/-- One Euler-Maruyama update
`x + drift(x, times[t]) * dt + diffusion(x, times[t]) * dW[t]`
(process.rs, lines 87-92, one line of the loop body). -/
def emStep (drift diffusion : ℚ → ℚ → ℚ) (dt : ℚ) (times dW : ℕ → ℚ)
    (x : ℚ) (t : ℕ) : ℚ :=
  x + drift x (times t) * dt + diffusion x (times t) * dW t

/-- Value of the in-place recursion `path[t+1] = emStep ... path[t] t`,
`path[0] = x_0` (process.rs, lines 86-93: the vec is initialised to the
initial value and slot `t+1` is overwritten from slot `t`). -/
def emPath (drift diffusion : ℚ → ℚ → ℚ) (dt : ℚ) (times dW : ℕ → ℚ)
    (x_0 : ℚ) : ℕ → ℚ
  | 0 => x_0
  | t + 1 =>
      emStep drift diffusion dt times dW
        (emPath drift diffusion dt times dW x_0 t) t

/-- The asset-factor path (`x_path`) produced by one run of the closure
`path_generator` (process.rs, lines 76-94) for one path: increments
`dW[t] = z[t] * dt.sqrt()`, recursion on `drift_1` / `diffusion_1`. -/
def StochasticVolatilityProcess.assetFactorPath (p : StochasticVolatilityProcess)
    (x_0 t_0 t_n : ℚ) (n_steps : ℕ) (sqrtf : ℚ → ℚ) (zi : ℕ → ℚ) : List ℚ :=
  let dt : ℚ := (t_n - t_0) / (n_steps : ℚ)
  (List.range (n_steps + 1)).map
    (emPath p.drift_1 p.diffusion_1 dt (fun (t : ℕ) => t_0 + dt * (t : ℚ))
      (fun t => zi t * sqrtf dt) x_0)

/-- The volatility-factor path (`y_path`) produced by the same run of
`path_generator` (process.rs, lines 76-94): the same increments
`dW[t] = z[t] * dt.sqrt()` drive the recursion on `drift_2` / `diffusion_2`. -/
def StochasticVolatilityProcess.volFactorPath (p : StochasticVolatilityProcess)
    (y_0 t_0 t_n : ℚ) (n_steps : ℕ) (sqrtf : ℚ → ℚ) (zi : ℕ → ℚ) : List ℚ :=
  let dt : ℚ := (t_n - t_0) / (n_steps : ℚ)
  (List.range (n_steps + 1)).map
    (emPath p.drift_2 p.diffusion_2 dt (fun (t : ℕ) => t_0 + dt * (t : ℚ))
      (fun t => zi t * sqrtf dt) y_0)

/-- `StochasticVolatilityProcess::euler_maruyama` (process.rs, lines 57-112).
`assert!(t_0 < t_n)` is the `if`-guard (`none` = panic); `dt`, the time grid
`t_0 + dt * t`, and the per-path generation follow the source.  The source's
`parallel` branch runs the identical `path_generator` through
`par_iter_mut().zip(...)` instead of `iter_mut().zip(...)`, preserving the
pairing of paths with their noise; both branches therefore produce the same
value here.  `y_paths` is computed but only `x_paths` is returned, exactly as
in the source (lines 108-111).  No seed parameter exists in the source
signature: the noise comes from `rand::thread_rng()`, modelled by the oracle
`z`. -/
def StochasticVolatilityProcess.euler_maruyama (p : StochasticVolatilityProcess)
    (x_0 y_0 t_0 t_n : ℚ) (n_steps m_paths : ℕ) (parallel : Bool)
    (sqrtf : ℚ → ℚ) (z : ℕ → ℕ → ℚ) : Option Trajectories :=
  if t_0 < t_n then
    let dt : ℚ := (t_n - t_0) / (n_steps : ℚ)
    let times : List ℚ :=
      (List.range (n_steps + 1)).map (fun (t : ℕ) => t_0 + dt * (t : ℚ))
    let x_paths : List (List ℚ) :=
      (List.range m_paths).map
        (fun i => p.assetFactorPath x_0 t_0 t_n n_steps sqrtf (z i))
    let y_paths : List (List ℚ) :=
      (List.range m_paths).map
        (fun i => p.volFactorPath y_0 t_0 t_n n_steps sqrtf (z i))
    if parallel then some { times := times, paths := x_paths }
    else some { times := times, paths := x_paths }
  else
    none

/-- `BrownianMotion` (brownian_motion.rs, line 14): no parameters. -/
structure BrownianMotion where

/-- `BrownianMotion::new` (brownian_motion.rs, lines 25-27). -/
def BrownianMotion.new : BrownianMotion := {}

/-- `BrownianMotion::drift` (brownian_motion.rs, lines 31-33): always `0.0`. -/
def BrownianMotion.drift (_p : BrownianMotion) (_x _t : ℚ) : ℚ := 0

/-- `BrownianMotion::diffusion` (brownian_motion.rs, lines 35-37): always `1.0`. -/
def BrownianMotion.diffusion (_p : BrownianMotion) (_x _t : ℚ) : ℚ := 1

/-- `BrownianMotion::jump` (brownian_motion.rs, lines 39-41): always `None`. -/
def BrownianMotion.jump (_p : BrownianMotion) (_x _t : ℚ) : Option ℚ := none

/-- `CoxIngersollRoss` (cox_ingersoll_ross.rs, lines 15-25). -/
structure CoxIngersollRoss where
  mu : ModelParameter
  sigma : ModelParameter
  theta : ModelParameter

/-- `CoxIngersollRoss::new` (cox_ingersoll_ross.rs, lines 29-39): stores the
three parameters, no validation. -/
def CoxIngersollRoss.new (mu sigma theta : ModelParameter) : CoxIngersollRoss :=
  { mu := mu, sigma := sigma, theta := theta }

/-- `CoxIngersollRoss::drift` (cox_ingersoll_ross.rs, lines 43-45):
`theta(t) * (mu(t) - x)`. -/
def CoxIngersollRoss.drift (p : CoxIngersollRoss) (x t : ℚ) : ℚ :=
  p.theta t * (p.mu t - x)

/-- `CoxIngersollRoss::diffusion` (cox_ingersoll_ross.rs, lines 47-50):
`assert!(sigma(t) >= 0.0); sigma(t) * x.sqrt()`.  The assert is the guard
(`none` = panic); `sqrtf` models `f64::sqrt`. -/
def CoxIngersollRoss.diffusion (p : CoxIngersollRoss) (sqrtf : ℚ → ℚ)
    (x t : ℚ) : Option ℚ :=
  if 0 ≤ p.sigma t then some (p.sigma t * sqrtf x) else none

/-- `CoxIngersollRoss::jump` (cox_ingersoll_ross.rs, lines 52-54): always `None`. -/
def CoxIngersollRoss.jump (_p : CoxIngersollRoss) (_x _t : ℚ) : Option ℚ := none

/-- `HoLee` (ho_lee.rs, lines 14-20). -/
structure HoLee where
  sigma : ModelParameter
  theta : ModelParameter

/-- `HoLee::new` (ho_lee.rs, lines 24-29): stores the two parameters, no
validation. -/
def HoLee.new (sigma theta : ModelParameter) : HoLee :=
  { sigma := sigma, theta := theta }

/-- `HoLee::drift` (ho_lee.rs, lines 33-36):
`assert!(theta(t) >= 0.0); theta(t)`. -/
def HoLee.drift (p : HoLee) (_x t : ℚ) : Option ℚ :=
  if 0 ≤ p.theta t then some (p.theta t) else none

/-- `HoLee::diffusion` (ho_lee.rs, lines 38-41):
`assert!(sigma(t) >= 0.0); sigma(t)`. -/
def HoLee.diffusion (p : HoLee) (_x t : ℚ) : Option ℚ :=
  if 0 ≤ p.sigma t then some (p.sigma t) else none

/-- `HoLee::jump` (ho_lee.rs, lines 43-45): always `None`. -/
def HoLee.jump (_p : HoLee) (_x _t : ℚ) : Option ℚ := none

/-- `ExtendedVasicek` (extended_vasicek.rs, lines 14-23). -/
structure ExtendedVasicek where
  alpha : ModelParameter
  sigma : ModelParameter
  theta : ModelParameter

/-- `ExtendedVasicek::new` (extended_vasicek.rs, lines 27-37): stores the
three parameters, no validation. -/
def ExtendedVasicek.new (alpha sigma theta : ModelParameter) : ExtendedVasicek :=
  { alpha := alpha, sigma := sigma, theta := theta }

/-- `ExtendedVasicek::drift` (extended_vasicek.rs, lines 41-43):
`theta(t) - alpha(t) * x`. -/
def ExtendedVasicek.drift (p : ExtendedVasicek) (x t : ℚ) : ℚ :=
  p.theta t - p.alpha t * x

/-- `ExtendedVasicek::diffusion` (extended_vasicek.rs, lines 45-47):
returns `sigma(t)` unconditionally, no assertion. -/
def ExtendedVasicek.diffusion (p : ExtendedVasicek) (_x t : ℚ) : ℚ :=
  p.sigma t

/-- `ExtendedVasicek::jump` (extended_vasicek.rs, lines 49-51): always `None`. -/
def ExtendedVasicek.jump (_p : ExtendedVasicek) (_x _t : ℚ) : Option ℚ := none

/-- `FractionalProcessGeneratorMethod` (crate module `fractional_process`,
outside the excerpt).  Modelled from the spec: the fractional path generator
offers two noise-generation methods, exact Cholesky-based covariance sampling
and a spectral/FFT circulant-embedding method; the test in
fractional_ornstein_uhlenbeck.rs uses the variant `FFT`. -/
inductive FractionalProcessGeneratorMethod where
  | CHOLESKY
  | FFT
  deriving DecidableEq

/-- `FractionalOrnsteinUhlenbeck` (fractional_ornstein_uhlenbeck.rs, lines
15-32).  The Hurst parameter (`f64`) is modelled as `ℚ`. -/
structure FractionalOrnsteinUhlenbeck where
  mu : ModelParameter
  sigma : ModelParameter
  theta : ModelParameter
  hurst : ℚ
  method : FractionalProcessGeneratorMethod

/-- `FractionalOrnsteinUhlenbeck::new` (fractional_ornstein_uhlenbeck.rs,
lines 36-51): `assert!((0.0..=1.0).contains(&hurst))` — the closed interval
`0 <= hurst <= 1` — then stores the parameters.  The assert is the guard
(`none` = panic). -/
def FractionalOrnsteinUhlenbeck.new (mu sigma theta : ModelParameter)
    (hurst : ℚ) (method : FractionalProcessGeneratorMethod) :
    Option FractionalOrnsteinUhlenbeck :=
  if 0 ≤ hurst ∧ hurst ≤ 1 then
    some { mu := mu, sigma := sigma, theta := theta, hurst := hurst,
           method := method }
  else
    none

/-- `FractionalOrnsteinUhlenbeck::drift` (fractional_ornstein_uhlenbeck.rs,
lines 55-57): `theta(t) * (mu(t) - x)`. -/
def FractionalOrnsteinUhlenbeck.drift (p : FractionalOrnsteinUhlenbeck)
    (x t : ℚ) : ℚ :=
  p.theta t * (p.mu t - x)

/-- `FractionalOrnsteinUhlenbeck::diffusion` (fractional_ornstein_uhlenbeck.rs,
lines 59-62): `assert!(sigma(t) >= 0.0); sigma(t)`. -/
def FractionalOrnsteinUhlenbeck.diffusion (p : FractionalOrnsteinUhlenbeck)
    (_x t : ℚ) : Option ℚ :=
  if 0 ≤ p.sigma t then some (p.sigma t) else none

/-- `FractionalOrnsteinUhlenbeck::jump` (fractional_ornstein_uhlenbeck.rs,
lines 64-66): always `None`. -/
def FractionalOrnsteinUhlenbeck.jump (_p : FractionalOrnsteinUhlenbeck)
    (_x _t : ℚ) : Option ℚ := none

/-! ## Shared lemmas about the engine -/

/-- Unfolding of `euler_maruyama` when the time-order assertion passes: both
the serial and the parallel branch return the time grid and the asset-factor
paths. -/
theorem euler_maruyama_eq_some (p : StochasticVolatilityProcess)
    (x_0 y_0 t_0 t_n : ℚ) (n_steps m_paths : ℕ) (parallel : Bool)
    (sqrtf : ℚ → ℚ) (z : ℕ → ℕ → ℚ) (h : t_0 < t_n) :
    p.euler_maruyama x_0 y_0 t_0 t_n n_steps m_paths parallel sqrtf z =
      some { times := (List.range (n_steps + 1)).map
               (fun (t : ℕ) => t_0 + (t_n - t_0) / (n_steps : ℚ) * (t : ℚ)),
             paths := (List.range m_paths).map
               (fun i => p.assetFactorPath x_0 t_0 t_n n_steps sqrtf (z i)) } := by
  unfold StochasticVolatilityProcess.euler_maruyama
  rw [if_pos h]
  cases parallel <;> rfl

/-- The time grid of a successful run. -/
theorem euler_maruyama_some_times (p : StochasticVolatilityProcess)
    (x_0 y_0 t_0 t_n : ℚ) (n_steps m_paths : ℕ) (parallel : Bool)
    (sqrtf : ℚ → ℚ) (z : ℕ → ℕ → ℚ) (traj : Trajectories) (ht : t_0 < t_n)
    (htraj : p.euler_maruyama x_0 y_0 t_0 t_n n_steps m_paths parallel sqrtf z
      = some traj) :
    traj.times = (List.range (n_steps + 1)).map
      (fun (t : ℕ) => t_0 + (t_n - t_0) / (n_steps : ℚ) * (t : ℚ)) := by
  rw [euler_maruyama_eq_some p x_0 y_0 t_0 t_n n_steps m_paths parallel sqrtf
    z ht, Option.some.injEq] at htraj
  subst htraj
  rfl

/-- The paths of a successful run. -/
theorem euler_maruyama_some_paths (p : StochasticVolatilityProcess)
    (x_0 y_0 t_0 t_n : ℚ) (n_steps m_paths : ℕ) (parallel : Bool)
    (sqrtf : ℚ → ℚ) (z : ℕ → ℕ → ℚ) (traj : Trajectories) (ht : t_0 < t_n)
    (htraj : p.euler_maruyama x_0 y_0 t_0 t_n n_steps m_paths parallel sqrtf z
      = some traj) :
    traj.paths = (List.range m_paths).map
      (fun i => p.assetFactorPath x_0 t_0 t_n n_steps sqrtf (z i)) := by
  rw [euler_maruyama_eq_some p x_0 y_0 t_0 t_n n_steps m_paths parallel sqrtf
    z ht, Option.some.injEq] at htraj
  subst htraj
  rfl

/-- Element `j` of the time grid. -/
theorem timeGrid_getElem (t_0 dt : ℚ) (n j : ℕ) (hj : j < n + 1) :
    ((List.range (n + 1)).map (fun (t : ℕ) => t_0 + dt * (t : ℚ)))[j]? =
      some (t_0 + dt * (j : ℚ)) := by
  rw [List.getElem?_map, List.getElem?_range hj, Option.map_some']

/-- The recursion equation of `emPath` at a successor index. -/
theorem emPath_succ (drift diffusion : ℚ → ℚ → ℚ) (dt : ℚ) (times dW : ℕ → ℚ)
    (x_0 : ℚ) (k : ℕ) :
    emPath drift diffusion dt times dW x_0 (k + 1) =
      emPath drift diffusion dt times dW x_0 k
        + drift (emPath drift diffusion dt times dW x_0 k) (times k) * dt
        + diffusion (emPath drift diffusion dt times dW x_0 k) (times k)
          * dW k :=
  rfl

/-- Element `j` of the asset-factor path is the `emPath` recursion value. -/
theorem assetFactorPath_getElem (p : StochasticVolatilityProcess)
    (x_0 t_0 t_n : ℚ) (n_steps : ℕ) (sqrtf : ℚ → ℚ) (zi : ℕ → ℚ) (j : ℕ)
    (hj : j < n_steps + 1) :
    (p.assetFactorPath x_0 t_0 t_n n_steps sqrtf zi)[j]? =
      some (emPath p.drift_1 p.diffusion_1 ((t_n - t_0) / (n_steps : ℚ))
        (fun (t : ℕ) => t_0 + (t_n - t_0) / (n_steps : ℚ) * (t : ℚ))
        (fun t => zi t * sqrtf ((t_n - t_0) / (n_steps : ℚ))) x_0 j) := by
  simp only [StochasticVolatilityProcess.assetFactorPath]
  rw [List.getElem?_map, List.getElem?_range hj, Option.map_some']

/-- Element `j` of the volatility-factor path is the `emPath` recursion
value, driven by the same increments. -/
theorem volFactorPath_getElem (p : StochasticVolatilityProcess)
    (y_0 t_0 t_n : ℚ) (n_steps : ℕ) (sqrtf : ℚ → ℚ) (zi : ℕ → ℚ) (j : ℕ)
    (hj : j < n_steps + 1) :
    (p.volFactorPath y_0 t_0 t_n n_steps sqrtf zi)[j]? =
      some (emPath p.drift_2 p.diffusion_2 ((t_n - t_0) / (n_steps : ℚ))
        (fun (t : ℕ) => t_0 + (t_n - t_0) / (n_steps : ℚ) * (t : ℚ))
        (fun t => zi t * sqrtf ((t_n - t_0) / (n_steps : ℚ))) y_0 j) := by
  simp only [StochasticVolatilityProcess.volFactorPath]
  rw [List.getElem?_map, List.getElem?_range hj, Option.map_some']

/-! ## Claim theorems -/

/-- C1 counterexample: the two-factor engine `euler_maruyama` has no seed
input at all — its signature (process.rs, lines 57-66) carries no seed and no
configuration, and each path's noise comes from `rand::thread_rng()`
(modelled by the oracle `z`).  Two runs that agree on every
configuration-determined argument (hence on any supplied seed) can still
differ, because the per-path stream is not a function of (seed, path index). -/
theorem euler_maruyama_not_seed_reproducible :
    StochasticVolatilityProcess.euler_maruyama
        { drift_1 := fun _ _ => 0, drift_2 := fun _ _ => 0,
          diffusion_1 := fun _ _ => 1, diffusion_2 := fun _ _ => 1 }
        0 0 0 1 1 1 false id (fun _ _ => 0) ≠
      StochasticVolatilityProcess.euler_maruyama
        { drift_1 := fun _ _ => 0, drift_2 := fun _ _ => 0,
          diffusion_1 := fun _ _ => 1, diffusion_2 := fun _ _ => 1 }
        0 0 0 1 1 1 false id (fun _ _ => 1) := by
  with_unfolding_all decide

/-- C1 amended: path values are a deterministic function of the per-path
noise streams actually drawn, and, for a fixed per-path stream assignment,
serial and parallel execution produce identical trajectories; the
configuration's seed plays no role because the engine never consumes one. -/
theorem euler_maruyama_serial_parallel_agree (p : StochasticVolatilityProcess)
    (x_0 y_0 t_0 t_n : ℚ) (n_steps m_paths : ℕ)
    (sqrtf : ℚ → ℚ) (z : ℕ → ℕ → ℚ) :
    p.euler_maruyama x_0 y_0 t_0 t_n n_steps m_paths true sqrtf z =
      p.euler_maruyama x_0 y_0 t_0 t_n n_steps m_paths false sqrtf z := by
  by_cases h : t_0 < t_n
  · rw [euler_maruyama_eq_some p x_0 y_0 t_0 t_n n_steps m_paths true sqrtf z h,
      euler_maruyama_eq_some p x_0 y_0 t_0 t_n n_steps m_paths false sqrtf z h]
  · unfold StochasticVolatilityProcess.euler_maruyama
    rw [if_neg h, if_neg h]

/-- C2 counterexample: `StochasticProcessConfig::new` succeeds on
`t_0 = 1 >= t_n = 0`, `n_steps = 0`, `m_paths = 0`, storing every invalid
value unchanged — construction does not fail. -/
theorem config_new_accepts_inverted_interval :
    StochasticProcessConfig.new 0 1 0 0 StochasticScheme.eulerMaruyama 0 false
        none =
      { x_0 := 0, t_0 := 1, t_n := 0, n_steps := 0,
        scheme := StochasticScheme.eulerMaruyama, m_paths := 0,
        parallel := false, seed := none } :=
  rfl

/-- C2 amended: `StochasticProcessConfig::new` performs no validation at all:
every argument combination — including `t_0 >= t_n`, `n_steps = 0` and
`m_paths = 0` — is accepted, and all eight fields are stored unchanged (never
clamped).  (The `t_0 < t_n` check happens only later, asserted by the
two-factor engine at simulation time.) -/
theorem config_new_stores_arguments_unchanged (x_0 t_0 t_n : ℚ)
    (n_steps : ℕ) (scheme : StochasticScheme) (m_paths : ℕ) (parallel : Bool)
    (seed : Option ℕ) :
    (StochasticProcessConfig.new x_0 t_0 t_n n_steps scheme m_paths parallel
        seed).x_0 = x_0
    ∧ (StochasticProcessConfig.new x_0 t_0 t_n n_steps scheme m_paths parallel
        seed).t_0 = t_0
    ∧ (StochasticProcessConfig.new x_0 t_0 t_n n_steps scheme m_paths parallel
        seed).t_n = t_n
    ∧ (StochasticProcessConfig.new x_0 t_0 t_n n_steps scheme m_paths parallel
        seed).n_steps = n_steps
    ∧ (StochasticProcessConfig.new x_0 t_0 t_n n_steps scheme m_paths parallel
        seed).scheme = scheme
    ∧ (StochasticProcessConfig.new x_0 t_0 t_n n_steps scheme m_paths parallel
        seed).m_paths = m_paths
    ∧ (StochasticProcessConfig.new x_0 t_0 t_n n_steps scheme m_paths parallel
        seed).parallel = parallel
    ∧ (StochasticProcessConfig.new x_0 t_0 t_n n_steps scheme m_paths parallel
        seed).seed = seed :=
  ⟨rfl, rfl, rfl, rfl, rfl, rfl, rfl, rfl⟩

/-- C5: `FractionalOrnsteinUhlenbeck::new` fails (assert = `none`) for every
Hurst exponent outside `[0, 1]`, and for every Hurst exponent inside the
allowed (closed) range it succeeds and stores the Hurst exponent — and every
other parameter — unchanged. -/
theorem fou_new_checks_hurst (mu sigma theta : ModelParameter) (hurst : ℚ)
    (method : FractionalProcessGeneratorMethod) :
    (hurst < 0 ∨ 1 < hurst →
        FractionalOrnsteinUhlenbeck.new mu sigma theta hurst method = none)
    ∧ (0 ≤ hurst → hurst ≤ 1 →
        FractionalOrnsteinUhlenbeck.new mu sigma theta hurst method =
          some { mu := mu, sigma := sigma, theta := theta, hurst := hurst,
                 method := method }) := by
  constructor
  · intro h
    have hno : ¬(0 ≤ hurst ∧ hurst ≤ 1) := by
      rintro ⟨h0, h1⟩
      rcases h with h | h
      · exact absurd h0 (not_le.mpr h)
      · exact absurd h1 (not_le.mpr h)
    unfold FractionalOrnsteinUhlenbeck.new
    rw [if_neg hno]
  · intro h0 h1
    unfold FractionalOrnsteinUhlenbeck.new
    rw [if_pos ⟨h0, h1⟩]

/-- Witness for C5: the Hurst exponent `2` is rejected and the Hurst exponent
`1/2` is accepted and stored unchanged. -/
theorem fou_new_checks_hurst_witness :
    ((2:ℚ) < 0 ∨ 1 < (2:ℚ))
    ∧ FractionalOrnsteinUhlenbeck.new (ModelParameter.ofConstant 0)
        (ModelParameter.ofConstant 1) (ModelParameter.ofConstant 0) 2
        FractionalProcessGeneratorMethod.FFT = none
    ∧ (0:ℚ) ≤ 1 / 2 ∧ (1:ℚ) / 2 ≤ 1
    ∧ FractionalOrnsteinUhlenbeck.new (ModelParameter.ofConstant 0)
        (ModelParameter.ofConstant 1) (ModelParameter.ofConstant 0) (1 / 2)
        FractionalProcessGeneratorMethod.FFT =
        some { mu := ModelParameter.ofConstant 0,
               sigma := ModelParameter.ofConstant 1,
               theta := ModelParameter.ofConstant 0, hurst := 1 / 2,
               method := FractionalProcessGeneratorMethod.FFT } :=
  ⟨Or.inr (by decide),
   (fou_new_checks_hurst (ModelParameter.ofConstant 0)
       (ModelParameter.ofConstant 1) (ModelParameter.ofConstant 0) 2
       FractionalProcessGeneratorMethod.FFT).1 (Or.inr (by decide)),
   by with_unfolding_all decide, by with_unfolding_all decide,
   (fou_new_checks_hurst (ModelParameter.ofConstant 0)
       (ModelParameter.ofConstant 1) (ModelParameter.ofConstant 0) (1 / 2)
       FractionalProcessGeneratorMethod.FFT).2
     (by with_unfolding_all decide) (by with_unfolding_all decide)⟩

/-- C8: the two-factor engine itself asserts `t_0 < t_n` at simulation time
(process.rs, line 67), before any path is built: for every call with
`t_n <= t_0` the run panics (`none`) and no `Trajectories` value is produced,
even though `StochasticProcessConfig::new` accepts such an interval. -/
theorem euler_maruyama_rejects_inverted_interval
    (p : StochasticVolatilityProcess) (x_0 y_0 t_0 t_n : ℚ)
    (n_steps m_paths : ℕ) (parallel : Bool) (sqrtf : ℚ → ℚ)
    (z : ℕ → ℕ → ℚ) (h : t_n ≤ t_0) :
    p.euler_maruyama x_0 y_0 t_0 t_n n_steps m_paths parallel sqrtf z =
      none := by
  unfold StochasticVolatilityProcess.euler_maruyama
  rw [if_neg (not_lt.mpr h)]

/-- Witness for C8: the inverted interval `t_0 = 1, t_n = 0` produces no
trajectories. -/
theorem euler_maruyama_rejects_inverted_interval_witness :
    (0:ℚ) ≤ 1
    ∧ StochasticVolatilityProcess.euler_maruyama
        { drift_1 := fun _ _ => 0, drift_2 := fun _ _ => 0,
          diffusion_1 := fun _ _ => 1, diffusion_2 := fun _ _ => 1 }
        0 0 1 0 5 2 true id (fun _ _ => 0) = none :=
  ⟨by decide,
   euler_maruyama_rejects_inverted_interval
     { drift_1 := fun _ _ => 0, drift_2 := fun _ _ => 0,
       diffusion_1 := fun _ _ => 1, diffusion_2 := fun _ _ => 1 }
     0 0 1 0 5 2 true id (fun _ _ => 0) (by decide)⟩

/-- C3: under `t_0 < t_n`, `n_steps >= 1`, `m_paths >= 1`, the returned
`Trajectories` has a time grid of length `n_steps + 1` with `times[0] = t_0`,
`times[n_steps] = t_n`, strictly increasing with uniform spacing
`dt = (t_n - t_0) / n_steps`; it has exactly `m_paths` paths, each of length
`n_steps + 1` and starting at the initial value `x_0`. -/
theorem euler_maruyama_trajectories_shape (p : StochasticVolatilityProcess)
    (x_0 y_0 t_0 t_n : ℚ) (n_steps m_paths : ℕ) (parallel : Bool)
    (sqrtf : ℚ → ℚ) (z : ℕ → ℕ → ℚ) (traj : Trajectories)
    (ht : t_0 < t_n) (hn : 1 ≤ n_steps) (hm : 1 ≤ m_paths)
    (htraj : p.euler_maruyama x_0 y_0 t_0 t_n n_steps m_paths parallel sqrtf z
      = some traj) :
    traj.times.length = n_steps + 1
    ∧ traj.times[0]? = some t_0
    ∧ traj.times[n_steps]? = some t_n
    ∧ (∀ k, k < n_steps →
        ∃ a b, traj.times[k]? = some a ∧ traj.times[k + 1]? = some b
          ∧ a < b ∧ b - a = (t_n - t_0) / (n_steps : ℚ))
    ∧ traj.paths.length = m_paths
    ∧ ∀ xs ∈ traj.paths, xs.length = n_steps + 1 ∧ xs[0]? = some x_0 := by
  have hT := euler_maruyama_some_times p x_0 y_0 t_0 t_n n_steps m_paths
    parallel sqrtf z traj ht htraj
  have hP := euler_maruyama_some_paths p x_0 y_0 t_0 t_n n_steps m_paths
    parallel sqrtf z traj ht htraj
  have hcast : ((n_steps : ℚ)) ≠ 0 := Nat.cast_ne_zero.mpr (by omega)
  have hdtpos : 0 < (t_n - t_0) / (n_steps : ℚ) :=
    div_pos (sub_pos.mpr ht) (Nat.cast_pos.mpr (by omega))
  refine ⟨?_, ?_, ?_, ?_, ?_, ?_⟩
  · rw [hT]
    simp
  · rw [hT, timeGrid_getElem t_0 ((t_n - t_0) / (n_steps : ℚ)) n_steps 0
      (by omega)]
    norm_num
  · rw [hT, timeGrid_getElem t_0 ((t_n - t_0) / (n_steps : ℚ)) n_steps
      n_steps (by omega), Option.some.injEq,
      div_mul_cancel₀ (t_n - t_0) hcast]
    ring
  · intro k hk
    refine ⟨t_0 + (t_n - t_0) / (n_steps : ℚ) * (k : ℚ),
      t_0 + (t_n - t_0) / (n_steps : ℚ) * (((k : ℕ) + 1 : ℕ) : ℚ),
      ?_, ?_, ?_, ?_⟩
    · rw [hT, timeGrid_getElem t_0 ((t_n - t_0) / (n_steps : ℚ)) n_steps k
        (by omega)]
    · rw [hT, timeGrid_getElem t_0 ((t_n - t_0) / (n_steps : ℚ)) n_steps
        (k + 1) (by omega)]
    · have h1 : ((k : ℚ)) < ((k + 1 : ℕ) : ℚ) := by
        push_cast
        linarith
      have h2 := mul_lt_mul_of_pos_left h1 hdtpos
      linarith
    · push_cast
      ring
  · rw [hP]
    simp
  · intro xs hxs
    rw [hP] at hxs
    obtain ⟨i, _, rfl⟩ := List.mem_map.mp hxs
    constructor
    · simp [StochasticVolatilityProcess.assetFactorPath]
    · rw [assetFactorPath_getElem p x_0 t_0 t_n n_steps sqrtf (z i) 0
        (by omega)]
      rfl

/-- Witness for C3: a concrete two-step, one-path run with zero drift and
diffusion produces the grid `[0, 1/2, 1]` and the constant path `[5, 5, 5]`. -/
theorem euler_maruyama_trajectories_shape_witness :
    (0:ℚ) < 1 ∧ (1:ℕ) ≤ 2 ∧ (1:ℕ) ≤ 1
    ∧ (Trajectories.mk [0, 1/2, 1] [[5, 5, 5]]).times.length = 2 + 1
    ∧ (Trajectories.mk [0, 1/2, 1] [[5, 5, 5]]).paths.length = 1 := by
  have h := euler_maruyama_trajectories_shape
    { drift_1 := fun _ _ => 0, drift_2 := fun _ _ => 0,
      diffusion_1 := fun _ _ => 0, diffusion_2 := fun _ _ => 0 }
    5 0 0 1 2 1 false id (fun _ _ => 0)
    (Trajectories.mk [0, 1/2, 1] [[5, 5, 5]])
    (by decide) (by decide) (by decide) (by with_unfolding_all decide)
  exact ⟨by decide, by decide, by decide, h.1, h.2.2.2.2.1⟩

/-- C4: for every step `k < n_steps` and every path `i < m_paths`, both
factors advance by
`x[k+1] = x[k] + drift(x[k], t[k])*dt + diffusion(x[k], t[k])*dW[k]`,
with the increment `dW[k] = z[k] * sqrt(dt)` (the raw draw scaled by the
square root of the step), and the asset factor and the volatility factor use
the identical increment `dW[k]` at each step. -/
theorem euler_maruyama_step_recursion (p : StochasticVolatilityProcess)
    (x_0 y_0 t_0 t_n : ℚ) (n_steps m_paths : ℕ) (parallel : Bool)
    (sqrtf : ℚ → ℚ) (z : ℕ → ℕ → ℚ) (traj : Trajectories) (i k : ℕ)
    (ht : t_0 < t_n)
    (htraj : p.euler_maruyama x_0 y_0 t_0 t_n n_steps m_paths parallel sqrtf z
      = some traj)
    (hi : i < m_paths) (hk : k < n_steps) (dt tk dW : ℚ)
    (hdt : dt = (t_n - t_0) / (n_steps : ℚ))
    (htk : tk = t_0 + dt * (k : ℚ))
    (hdW : dW = z i k * sqrtf dt) :
    (∃ xs xk xk1,
        traj.paths[i]? = some xs ∧ xs[k]? = some xk ∧ xs[k + 1]? = some xk1
        ∧ xk1 = xk + p.drift_1 xk tk * dt + p.diffusion_1 xk tk * dW)
    ∧ (∃ yk yk1,
        (p.volFactorPath y_0 t_0 t_n n_steps sqrtf (z i))[k]? = some yk
        ∧ (p.volFactorPath y_0 t_0 t_n n_steps sqrtf (z i))[k + 1]? =
          some yk1
        ∧ yk1 = yk + p.drift_2 yk tk * dt + p.diffusion_2 yk tk * dW) := by
  subst hdt htk hdW
  have hP := euler_maruyama_some_paths p x_0 y_0 t_0 t_n n_steps m_paths
    parallel sqrtf z traj ht htraj
  constructor
  · refine ⟨p.assetFactorPath x_0 t_0 t_n n_steps sqrtf (z i),
      emPath p.drift_1 p.diffusion_1 ((t_n - t_0) / (n_steps : ℚ))
        (fun (t : ℕ) => t_0 + (t_n - t_0) / (n_steps : ℚ) * (t : ℚ))
        (fun t => z i t * sqrtf ((t_n - t_0) / (n_steps : ℚ))) x_0 k,
      emPath p.drift_1 p.diffusion_1 ((t_n - t_0) / (n_steps : ℚ))
        (fun (t : ℕ) => t_0 + (t_n - t_0) / (n_steps : ℚ) * (t : ℚ))
        (fun t => z i t * sqrtf ((t_n - t_0) / (n_steps : ℚ))) x_0 (k + 1),
      ?_, ?_, ?_, ?_⟩
    · rw [hP, List.getElem?_map, List.getElem?_range hi, Option.map_some']
    · exact assetFactorPath_getElem p x_0 t_0 t_n n_steps sqrtf (z i) k
        (by omega)
    · exact assetFactorPath_getElem p x_0 t_0 t_n n_steps sqrtf (z i) (k + 1)
        (by omega)
    · exact emPath_succ p.drift_1 p.diffusion_1 _ _ _ x_0 k
  · refine ⟨emPath p.drift_2 p.diffusion_2 ((t_n - t_0) / (n_steps : ℚ))
        (fun (t : ℕ) => t_0 + (t_n - t_0) / (n_steps : ℚ) * (t : ℚ))
        (fun t => z i t * sqrtf ((t_n - t_0) / (n_steps : ℚ))) y_0 k,
      emPath p.drift_2 p.diffusion_2 ((t_n - t_0) / (n_steps : ℚ))
        (fun (t : ℕ) => t_0 + (t_n - t_0) / (n_steps : ℚ) * (t : ℚ))
        (fun t => z i t * sqrtf ((t_n - t_0) / (n_steps : ℚ))) y_0 (k + 1),
      ?_, ?_, ?_⟩
    · exact volFactorPath_getElem p y_0 t_0 t_n n_steps sqrtf (z i) k
        (by omega)
    · exact volFactorPath_getElem p y_0 t_0 t_n n_steps sqrtf (z i) (k + 1)
        (by omega)
    · exact emPath_succ p.drift_2 p.diffusion_2 _ _ _ y_0 k

/-- Witness for C4: a one-step run with unit drift and diffusion on the
asset factor: `x[1] = 0 + 1*1 + 1*1 = 2` and the volatility factor advances
with the identical increment: `y[1] = 0 + 0*1 + 2*1 = 2`. -/
theorem euler_maruyama_step_recursion_witness :
    (0:ℚ) < 1 ∧ (0:ℕ) < 1 ∧ (0:ℕ) < 1
    ∧ (1:ℚ) = (1 - 0) / ((1:ℕ) : ℚ)
    ∧ (0:ℚ) = 0 + 1 * ((0:ℕ) : ℚ)
    ∧ (1:ℚ) = 1 * id (1:ℚ)
    ∧ (∃ xs xk xk1,
        (Trajectories.mk [0, 1] [[0, 2]]).paths[0]? = some xs
        ∧ xs[0]? = some xk ∧ xs[0 + 1]? = some xk1
        ∧ xk1 = xk + (1:ℚ) * 1 + 1 * 1)
    ∧ (∃ yk yk1,
        (StochasticVolatilityProcess.volFactorPath
          { drift_1 := fun _ _ => 1, drift_2 := fun _ _ => 0,
            diffusion_1 := fun _ _ => 1, diffusion_2 := fun _ _ => 2 }
          0 0 1 1 id (fun t => (fun (_ _ : ℕ) => (1:ℚ)) 0 t))[0]? = some yk
        ∧ (StochasticVolatilityProcess.volFactorPath
          { drift_1 := fun _ _ => 1, drift_2 := fun _ _ => 0,
            diffusion_1 := fun _ _ => 1, diffusion_2 := fun _ _ => 2 }
          0 0 1 1 id (fun t => (fun (_ _ : ℕ) => (1:ℚ)) 0 t))[0 + 1]? =
          some yk1
        ∧ yk1 = yk + (0:ℚ) * 1 + 2 * 1) := by
  have h := euler_maruyama_step_recursion
    { drift_1 := fun _ _ => 1, drift_2 := fun _ _ => 0,
      diffusion_1 := fun _ _ => 1, diffusion_2 := fun _ _ => 2 }
    0 0 0 1 1 1 false id (fun _ _ => 1)
    (Trajectories.mk [0, 1] [[0, 2]]) 0 0
    (by decide) (by with_unfolding_all decide) (by decide) (by decide)
    1 0 1
    (by with_unfolding_all decide) (by with_unfolding_all decide)
    (by with_unfolding_all decide)
  refine ⟨by decide, by decide, by decide, by with_unfolding_all decide,
    by with_unfolding_all decide, by with_unfolding_all decide, ?_, ?_⟩
  · obtain ⟨xs, xk, xk1, h1, h2, h3, h4⟩ := h.1
    exact ⟨xs, xk, xk1, h1, h2, h3, h4⟩
  · obtain ⟨yk, yk1, h1, h2, h3⟩ := h.2
    exact ⟨yk, yk1, h1, h2, h3⟩

/-- C6 counterexample: the volatility factor's paths are NOT made available
to the caller.  Two runs whose volatility factors follow different paths
(initial values 5 and 7) return identical `Trajectories` values, so no
consumer of the result can recover the second factor. -/
theorem euler_maruyama_vol_paths_not_available :
    (StochasticVolatilityProcess.euler_maruyama
        { drift_1 := fun _ _ => 0, drift_2 := fun _ _ => 0,
          diffusion_1 := fun _ _ => 1, diffusion_2 := fun _ _ => 1 }
        0 5 0 1 1 1 false id (fun _ _ => 0) =
      StochasticVolatilityProcess.euler_maruyama
        { drift_1 := fun _ _ => 0, drift_2 := fun _ _ => 0,
          diffusion_1 := fun _ _ => 1, diffusion_2 := fun _ _ => 1 }
        0 7 0 1 1 1 false id (fun _ _ => 0))
    ∧ StochasticVolatilityProcess.volFactorPath
        { drift_1 := fun _ _ => 0, drift_2 := fun _ _ => 0,
          diffusion_1 := fun _ _ => 1, diffusion_2 := fun _ _ => 1 }
        5 0 1 1 id (fun _ => 0) ≠
      StochasticVolatilityProcess.volFactorPath
        { drift_1 := fun _ _ => 0, drift_2 := fun _ _ => 0,
          diffusion_1 := fun _ _ => 1, diffusion_2 := fun _ _ => 1 }
        7 0 1 1 id (fun _ => 0) := by
  constructor
  · with_unfolding_all decide
  · with_unfolding_all decide

/-- C6 amended: the returned `Trajectories.paths` is exactly the asset
(first) factor's simulated paths; the volatility factor's paths are computed
during the run but discarded — the result does not depend on the second
factor at all (any process with the same asset drift/diffusion and any
volatility initial value yields the identical result). -/
theorem euler_maruyama_returns_only_asset_factor
    (p q : StochasticVolatilityProcess) (x_0 y_0 y_0q t_0 t_n : ℚ)
    (n_steps m_paths : ℕ) (parallel : Bool) (sqrtf : ℚ → ℚ) (z : ℕ → ℕ → ℚ)
    (traj : Trajectories) (ht : t_0 < t_n)
    (htraj : p.euler_maruyama x_0 y_0 t_0 t_n n_steps m_paths parallel sqrtf z
      = some traj)
    (hd : q.drift_1 = p.drift_1) (hs : q.diffusion_1 = p.diffusion_1) :
    traj.paths = (List.range m_paths).map
        (fun i => p.assetFactorPath x_0 t_0 t_n n_steps sqrtf (z i))
    ∧ q.euler_maruyama x_0 y_0q t_0 t_n n_steps m_paths parallel sqrtf z =
        some traj := by
  have hP := euler_maruyama_some_paths p x_0 y_0 t_0 t_n n_steps m_paths
    parallel sqrtf z traj ht htraj
  have hT := euler_maruyama_some_times p x_0 y_0 t_0 t_n n_steps m_paths
    parallel sqrtf z traj ht htraj
  have hasset : ∀ zi, q.assetFactorPath x_0 t_0 t_n n_steps sqrtf zi
      = p.assetFactorPath x_0 t_0 t_n n_steps sqrtf zi := by
    intro zi
    unfold StochasticVolatilityProcess.assetFactorPath
    rw [hd, hs]
  refine ⟨hP, ?_⟩
  rw [euler_maruyama_eq_some q x_0 y_0q t_0 t_n n_steps m_paths parallel
    sqrtf z ht]
  obtain ⟨ts, ps⟩ := traj
  simp only at hT hP
  subst hT
  subst hP
  simp only [hasset]

/-- Witness for C6 amended: a concrete run whose result carries the asset
paths and is reproduced bit-for-bit by a process with a different volatility
factor (different drift_2, diffusion_2 and initial value). -/
theorem euler_maruyama_returns_only_asset_factor_witness :
    (0:ℚ) < 1
    ∧ StochasticVolatilityProcess.euler_maruyama
        { drift_1 := fun _ _ => 0, drift_2 := fun _ _ => 3,
          diffusion_1 := fun _ _ => 1, diffusion_2 := fun _ _ => 1 }
        0 3 0 1 1 1 false id (fun _ _ => 0) =
        some (Trajectories.mk [0, 1] [[0, 0]])
    ∧ (Trajectories.mk [0, 1] [[0, 0]]).paths = (List.range 1).map
        (fun i => StochasticVolatilityProcess.assetFactorPath
          { drift_1 := fun _ _ => 0, drift_2 := fun _ _ => 3,
            diffusion_1 := fun _ _ => 1, diffusion_2 := fun _ _ => 1 }
          0 0 1 1 id ((fun (_ _ : ℕ) => (0:ℚ)) i))
    ∧ StochasticVolatilityProcess.euler_maruyama
        { drift_1 := fun _ _ => 0, drift_2 := fun _ _ => 9,
          diffusion_1 := fun _ _ => 1, diffusion_2 := fun _ _ => 5 }
        0 7 0 1 1 1 false id (fun _ _ => 0) =
        some (Trajectories.mk [0, 1] [[0, 0]]) := by
  have h := euler_maruyama_returns_only_asset_factor
    { drift_1 := fun _ _ => 0, drift_2 := fun _ _ => 3,
      diffusion_1 := fun _ _ => 1, diffusion_2 := fun _ _ => 1 }
    { drift_1 := fun _ _ => 0, drift_2 := fun _ _ => 9,
      diffusion_1 := fun _ _ => 1, diffusion_2 := fun _ _ => 5 }
    0 3 7 0 1 1 1 false id (fun _ _ => 0)
    (Trajectories.mk [0, 1] [[0, 0]])
    (by decide) (by with_unfolding_all decide) rfl rfl
  exact ⟨by decide, by with_unfolding_all decide, h.1, h.2⟩

/-- C7: whenever CIR's diffusion returns (under `x >= 0` and the fact that
`f64::sqrt` is non-negative on non-negative inputs) the value is
non-negative; whenever Ho-Lee's diffusion returns, its value is
non-negative; and for both models the `assert!(sigma(t) >= 0.0)` inside
`diffusion` panics (no value is returned) whenever `sigma(t) < 0`. -/
theorem cir_ho_lee_diffusion_nonneg (cir : CoxIngersollRoss) (hl : HoLee)
    (sqrtf : ℚ → ℚ) (x t : ℚ) :
    (0 ≤ x → (∀ q, 0 ≤ q → 0 ≤ sqrtf q) →
        ∀ v, cir.diffusion sqrtf x t = some v → 0 ≤ v)
    ∧ (∀ v, hl.diffusion x t = some v → 0 ≤ v)
    ∧ (cir.sigma t < 0 → cir.diffusion sqrtf x t = none)
    ∧ (hl.sigma t < 0 → hl.diffusion x t = none) := by
  refine ⟨?_, ?_, ?_, ?_⟩
  · intro hx hsq v hv
    unfold CoxIngersollRoss.diffusion at hv
    by_cases h : 0 ≤ cir.sigma t
    · rw [if_pos h, Option.some.injEq] at hv
      subst hv
      exact mul_nonneg h (hsq x hx)
    · rw [if_neg h] at hv
      exact Option.noConfusion hv
  · intro v hv
    unfold HoLee.diffusion at hv
    by_cases h : 0 ≤ hl.sigma t
    · rw [if_pos h, Option.some.injEq] at hv
      subst hv
      exact h
    · rw [if_neg h] at hv
      exact Option.noConfusion hv
  · intro h
    unfold CoxIngersollRoss.diffusion
    rw [if_neg (not_le.mpr h)]
  · intro h
    unfold HoLee.diffusion
    rw [if_neg (not_le.mpr h)]

/-- Witness for C7: with `sigma = 1` (CIR) and `sigma = 2` (Ho-Lee) the
diffusions return non-negative values at `x = 4`; with `sigma = -1` both
assertions fire and no value is returned. -/
theorem cir_ho_lee_diffusion_nonneg_witness :
    (0:ℚ) ≤ 4
    ∧ (0:ℚ) ≤ 1 * id (4:ℚ)
    ∧ (0:ℚ) ≤ 2
    ∧ (CoxIngersollRoss.new (ModelParameter.ofConstant 0)
        (ModelParameter.ofConstant (-1))
        (ModelParameter.ofConstant 0)).diffusion id 4 0 = none
    ∧ (HoLee.new (ModelParameter.ofConstant (-1))
        (ModelParameter.ofConstant 0)).diffusion 4 0 = none := by
  have hpos := cir_ho_lee_diffusion_nonneg
    (CoxIngersollRoss.new (ModelParameter.ofConstant 0)
      (ModelParameter.ofConstant 1) (ModelParameter.ofConstant 0))
    (HoLee.new (ModelParameter.ofConstant 2) (ModelParameter.ofConstant 0))
    id 4 0
  have hneg := cir_ho_lee_diffusion_nonneg
    (CoxIngersollRoss.new (ModelParameter.ofConstant 0)
      (ModelParameter.ofConstant (-1)) (ModelParameter.ofConstant 0))
    (HoLee.new (ModelParameter.ofConstant (-1))
      (ModelParameter.ofConstant 0))
    id 4 0
  refine ⟨by decide, ?_, ?_, ?_, ?_⟩
  · exact hpos.1 (by decide) (fun q hq => hq) (1 * id 4)
      (by with_unfolding_all decide)
  · exact hpos.2.1 2 (by with_unfolding_all decide)
  · exact hneg.2.2.1 (by with_unfolding_all decide)
  · exact hneg.2.2.2 (by with_unfolding_all decide)

/-- C9: every concrete single-factor model in the repository returns `None`
from `jump(x, t)` for every input, so the optional jump term never
contributes to any simulated path of these models. -/
theorem all_models_jump_none (bm : BrownianMotion) (cir : CoxIngersollRoss)
    (hl : HoLee) (fou : FractionalOrnsteinUhlenbeck) (ev : ExtendedVasicek)
    (x t : ℚ) :
    bm.jump x t = none ∧ cir.jump x t = none ∧ hl.jump x t = none
    ∧ fou.jump x t = none ∧ ev.jump x t = none :=
  ⟨rfl, rfl, rfl, rfl, rfl⟩

/-- C10: the non-fractional constructors validate nothing — every parameter
combination is stored unchanged, including a Ho-Lee process with negative
`sigma`; Ho-Lee's non-negativity assertion fires only when `diffusion` is
evaluated (returning no value then); and Extended-Vasicek's diffusion has no
assertion at all, returning `sigma(t)` unconditionally. -/
theorem model_constructors_accept_everything
    (mu alpha sigma theta : ModelParameter) (x t : ℚ) :
    (HoLee.new sigma theta).sigma = sigma
    ∧ (HoLee.new sigma theta).theta = theta
    ∧ (CoxIngersollRoss.new mu sigma theta).mu = mu
    ∧ (CoxIngersollRoss.new mu sigma theta).sigma = sigma
    ∧ (CoxIngersollRoss.new mu sigma theta).theta = theta
    ∧ (ExtendedVasicek.new alpha sigma theta).alpha = alpha
    ∧ (ExtendedVasicek.new alpha sigma theta).sigma = sigma
    ∧ (ExtendedVasicek.new alpha sigma theta).theta = theta
    ∧ (HoLee.new (ModelParameter.ofConstant (-1)) theta).sigma t = -1
    ∧ (HoLee.new (ModelParameter.ofConstant (-1)) theta).diffusion x t = none
    ∧ (ExtendedVasicek.new alpha sigma theta).diffusion x t = sigma t := by
  refine ⟨rfl, rfl, rfl, rfl, rfl, rfl, rfl, rfl, rfl, ?_, rfl⟩
  unfold HoLee.diffusion
  have hneg : ¬(0 ≤ (HoLee.new (ModelParameter.ofConstant (-1)) theta).sigma
      t) := by
    show ¬((0:ℚ) ≤ -1)
    norm_num
  rw [if_neg hneg]

end RustQuant
